import Mathlib

/-!
Shallow embedding of `morerss/zhihu_stream.py`: the Zhihu user/topic activity
stream to RSS pipeline.  Python dicts with possibly-missing keys are modelled
as structures with `Option` fields (`none` = key absent); a Python `KeyError`
is an `Except.error`.  `str.replace` (leftmost, non-overlapping, replace-all)
is modelled on `List Char` by `strReplace` below.
-/

namespace Morerss

/-- A Python `KeyError` carrying the missing key. -/
structure KeyError where
  key : String
deriving DecidableEq, Repr

/-- Reading `post[k]` from a dict field modelled as an `Option`:
`none` (key absent) raises `KeyError`. -/
def getKey {α : Type} (o : Option α) (k : String) : Except KeyError α :=
  match o with
  | some v => Except.ok v
  | none => Except.error ⟨k⟩

/-- Fuel-driven core of Python `str.replace`: at each position, if the
pattern starts here, emit the replacement and skip past the match,
otherwise keep the character.  Fuel is the string length, consumed one
unit per step, making the recursion structural (kernel-evaluable). -/
def replaceGo (pat rep : List Char) : Nat → List Char → List Char
  | _, [] => []
  | 0, l => l
  | fuel + 1, c :: rest =>
    if pat.isPrefixOf (c :: rest) then
      rep ++ replaceGo pat rep fuel (rest.drop (pat.length - 1))
    else
      c :: replaceGo pat rep fuel rest

/-- Python `s.replace(pat, rep)` on char lists.  The source never calls
`replace` with an empty pattern, which we map to the identity. -/
def strReplace (pat rep s : List Char) : List Char :=
  if pat = [] then s else replaceGo pat rep s.length s

/-- Python `s.replace(pat, rep)` on strings. -/
def pyReplace (s pat rep : String) : String :=
  ⟨strReplace pat.data rep.data s.data⟩

/-- `'%s' % v` where `v` may be Python `None` (absent dict value). -/
def pyStr (o : Option String) : String :=
  match o with
  | some s => s
  | none => "None"

/-! ## Data model: upstream items (`post` dicts) and RSS items -/

/-- An author sub-dict: `post['author']` with its `name` key. -/
structure AuthorInfo where
  name : Option String
deriving DecidableEq, Repr

/-- A question sub-dict: `post['question']` with `title` and `id`. -/
structure QuestionRef where
  title : Option String
  id : Option String
deriving DecidableEq, Repr

/-- One upstream content item (the `target` dict of an activity).  The
`type` discriminator is always present; every other key may be absent.
Ids are kept as strings (Python interpolates them with `%s` either way). -/
structure Post where
  type : String
  id : Option String
  title : Option String
  question : Option QuestionRef
  created_time : Option Int
  created : Option Int
  author : Option AuthorInfo
  excerpt : Option String
  content : Option String
  thumbnail : Option String
deriving DecidableEq, Repr

/-- A `PyRSS2Gen.RSSItem` as built by `post2rss`; `pubDate` keeps the raw
epoch-seconds timestamp handed to `utcfromtimestamp`. -/
structure RSSItem where
  title : String
  link : String
  guid : String
  description : String
  pubDate : Int
  author : Option String
deriving DecidableEq, Repr

/-- Decidable equality for `Except` results, to evaluate pipeline
outcomes on concrete items. -/
instance {ε α : Type} [DecidableEq ε] [DecidableEq α] : DecidableEq (Except ε α) := fun x y =>
  match x, y with
  | Except.ok a, Except.ok b =>
    if h : a = b then Decidable.isTrue (by rw [h])
    else Decidable.isFalse (fun he => h (Except.ok.inj he))
  | Except.error a, Except.error b =>
    if h : a = b then Decidable.isTrue (by rw [h])
    else Decidable.isFalse (fun he => h (Except.error.inj he))
  | Except.ok _, Except.error _ => Decidable.isFalse (fun he => Except.noConfusion he)
  | Except.error _, Except.ok _ => Decidable.isFalse (fun he => Except.noConfusion he)

/-! ## `post_content` (lines 171-187) -/

/-- `post_content(post, digest)`: body selection.  `question` → title;
else digest → excerpt; else no `content` key → excerpt; else content. -/
def post_content (post : Post) (digest : Bool) : Except KeyError String :=
  if post.type = "question" then
    getKey post.title "title"
  else if digest then
    getKey post.excerpt "excerpt"
  else if post.content = none then
    getKey post.excerpt "excerpt"
  else
    getKey post.content "content"

/-- The body-selection policy in the spec's words (§4.3 step 2), as a
priority list over the same item type; `none` when the selected field is
absent.  Written from the spec, to be compared with `post_content`. -/
def bodySelectionSpec (post : Post) (digest : Bool) : Option String :=
  if post.type = "question" then post.title
  else if digest then post.excerpt
  else if post.content = none then post.excerpt
  else post.content

/-- The dict keys each accepted branch of `post2rss` reads
unconditionally (lines 198-215); a missing one raises `KeyError`.
Reducible so that it stays decidable on concrete items. -/
abbrev dispatch_ok (post : Post) (extra_types : List String) : Prop :=
  (post.type = "answer" →
    post.question.bind QuestionRef.title ≠ none ∧
    post.question.bind QuestionRef.id ≠ none ∧
    post.id ≠ none ∧ post.created_time ≠ none ∧
    post.author.bind AuthorInfo.name ≠ none) ∧
  (post.type = "article" →
    post.title ≠ none ∧ post.id ≠ none ∧ post.created ≠ none ∧
    post.author.bind AuthorInfo.name ≠ none) ∧
  ("question" ∈ extra_types ∧ post.type = "question" →
    post.title ≠ none ∧ post.id ≠ none ∧ post.created ≠ none)

/-! ## `post2rss` (lines 190-248) -/

/-- Lines 225-226: `content.replace('<code ', '<pre><code ')` then
`content.replace('</code>', '</code></pre>')`. -/
def wrapCode (content : String) : String :=
  pyReplace (pyReplace content "<code " "<pre><code ") "</code>" "</code></pre>"

/-- Lines 224-248 of `post2rss` after kind dispatch: select the body,
wrap code tags, substitute the thumbnail image when the body is empty,
sanitize, and build the `RSSItem` (stripping `\x08`).  The chain
`fromstring` / `tidy_content` / `proxify_pic` / `tostring` of lines
232-236 lives in lxml and in repository files absent from src
(`zhihulib.py`, `base.py`); it is abstracted as the `sanitize` argument,
a function of the body string and the `pic` argument. -/
def make_item (sanitize : String → Option String → String) (post : Post)
    (digest : Bool) (pic : Option String)
    (title url : String) (t_c : Int) (author : Option String) :
    Except KeyError (Option RSSItem × Bool) := do
  let content ← post_content post digest
  let content := wrapCode content
  let content := if content = "" then "<img src=\"" ++ pyStr post.thumbnail ++ "\">" else content
  let content := sanitize content pic
  Except.ok (some {
    title := pyReplace title "\x08" "",
    link := url,
    guid := url,
    description := pyReplace content "\x08" "",
    pubDate := t_c,
    author := author }, false)

/-- `post2rss(post, digest, pic, extra_types)`.  Result `.ok (item?, warned)`:
`item? = none` means the item is skipped, `warned` records the
`logger.warn` call of line 221; `.error` is a raised `KeyError`.
`extra_types` is a list of type names (`topic2rss` passes the Python
string `('question')`, whose `in`-containment test agrees with list
membership of `["question"]`). -/
def post2rss (sanitize : String → Option String → String) (post : Post)
    (digest : Bool) (pic : Option String) (extra_types : List String) :
    Except KeyError (Option RSSItem × Bool) :=
  if post.type = "answer" then do
    let q ← getKey post.question "question"
    let qtitle ← getKey q.title "title"
    let qid ← getKey q.id "id"
    let pid ← getKey post.id "id"
    let t_c ← getKey post.created_time "created_time"
    let a ← getKey post.author "author"
    let aname ← getKey a.name "name"
    make_item sanitize post digest pic ("[回答] " ++ qtitle)
      ("https://www.zhihu.com/question/" ++ qid ++ "/answer/" ++ pid) t_c (some aname)
  else if post.type = "article" then do
    let ptitle ← getKey post.title "title"
    let pid ← getKey post.id "id"
    let t_c ← getKey post.created "created"
    let a ← getKey post.author "author"
    let aname ← getKey a.name "name"
    make_item sanitize post digest pic ("[文章] " ++ ptitle)
      ("https://zhuanlan.zhihu.com/p/" ++ pid) t_c (some aname)
  else if "question" ∈ extra_types ∧ post.type = "question" then do
    let ptitle ← getKey post.title "title"
    let pid ← getKey post.id "id"
    let t_c ← getKey post.created "created"
    make_item sanitize post digest pic ("[问题] " ++ ptitle)
      ("https://www.zhihu.com/question/" ++ pid) t_c none
  else if post.type ∈ ["roundtable", "live", "column"] then
    Except.ok (none, false)
  else
    Except.ok (none, true)

/-! ## Pagination (lines 137-168 `activities2rss`, 251-288 `topic2rss`) -/

/-- Line 18: the verbs accepted by the user-activity stream. -/
def ACCEPT_VERBS : List String := ["MEMBER_CREATE_ARTICLE", "ANSWER_CREATE"]

/-- One activity entry of a page's `data` array: its `verb` and `target`. -/
structure Activity where
  verb : String
  target : Post

/-- One upstream page: its `data` array and `paging['is_end']`.  The
`paging['next']` cursor chain is abstracted by indexing pages in fetch
order: page 0 is the first page and page `k+1` is the page reached by
following page `k`'s next link (for topics the link's `http://` scheme is
first rewritten to `https://`, which does not change which page it is). -/
structure ActPage where
  data : List Activity
  is_end : Bool

/-- Line 149/158 comprehension: `[x['target'] for x in data['data'] if
x['verb'] in ACCEPT_VERBS]`. -/
def page_posts_user (p : ActPage) : List Post :=
  (p.data.filter (fun x => x.verb ∈ ACCEPT_VERBS)).map Activity.target

/-- Line 265/277 comprehension: `[x['target'] for x in data['data']]`. -/
def page_posts_topic (p : ActPage) : List Post :=
  p.data.map Activity.target

/-- The shared pagination loop of lines 151-160 and 267-279:
`while len(posts) < 20 and page < 3: if paging['is_end']: break; fetch
next; extend; page += 1`.  `pp` extracts a page's accepted posts
(`page_posts_user` or `page_posts_topic`), `cur` is the last fetched
page, `page` counts pages fetched after the first.  Returns the final
`(posts, page, cur)`. -/
def stream_walk (pp : ActPage → List Post) (fetch : Nat → ActPage)
    (cur : ActPage) (posts : List Post) (page : Nat) :
    List Post × Nat × ActPage :=
  if h : posts.length < 20 ∧ page < 3 then
    if cur.is_end then (posts, page, cur)
    else
      let nxt := fetch (page + 1)
      stream_walk pp fetch nxt (posts ++ pp nxt) (page + 1)
  else (posts, page, cur)
termination_by 3 - page
decreasing_by omega

/-- Lines 145-160: the aggregation state produced by `activities2rss`
(posts, additional pages fetched, last page consumed). -/
def activities_agg (fetch : Nat → ActPage) : List Post × Nat × ActPage :=
  stream_walk page_posts_user fetch (fetch 0) (page_posts_user (fetch 0)) 0

/-- Lines 263-279: the aggregation state produced by `topic2rss`. -/
def topic_agg (fetch : Nat → ActPage) : List Post × Nat × ActPage :=
  stream_walk page_posts_topic fetch (fetch 0) (page_posts_topic (fetch 0)) 0

/-! ## Feed assembly and the request pipeline -/

/-- Modelled from the spec: `base.data2rss` (file `morerss/base.py`,
absent from src) maps the item normalizer over the aggregated posts in
order; items that normalize to nothing are absent from the feed, and per
the error policy (§4.3) an item whose normalization raises is skipped
and the remaining items are still processed. -/
def data2rss_items (sanitize : String → Option String → String)
    (digest : Bool) (pic : Option String) (extra_types : List String)
    (posts : List Post) : List RSSItem :=
  posts.filterMap (fun p =>
    match post2rss sanitize p digest pic extra_types with
    | Except.ok (some item, _) => some item
    | Except.ok (none, _) => none
    | Except.error _ => none)

/-- An upstream HTTP response body (empty string = empty body). -/
structure HTTPResponse where
  body : String

/-- The member profile card parsed from `MemberProfileCardV2` HTML. -/
structure CardInfo where
  name : String
  headline : String
  url : String

/-- Lines 71-101 `ZhihuAPI.card`: raises `web.HTTPError(404)` when the
response body is empty, otherwise parses the profile card.  The lxml
xpath parsing of the non-empty body (external library) is abstracted as
the `parse` argument; errors are HTTP status codes. -/
def card (parse : String → CardInfo) (res : HTTPResponse) :
    Except Nat CardInfo :=
  if res.body = "" then Except.error 404 else Except.ok (parse res.body)

/-- Lines 137-168 `activities2rss`: awaits `card` first (propagating its
`HTTPError`), then aggregates the user stream and assembles the feed
items (`data2rss` call of lines 162-166, with the default
`extra_types=()`). -/
def activities2rss (parse : String → CardInfo)
    (sanitize : String → Option String → String) (res : HTTPResponse)
    (fetch : Nat → ActPage) (digest : Bool) (pic : Option String) :
    Except Nat (List RSSItem) :=
  match card parse res with
  | Except.error e => Except.error e
  | Except.ok _ =>
    Except.ok (data2rss_items sanitize digest pic [] (activities_agg fetch).1)

/-! ## Request handlers (lines 290-315) -/

/-- Lines 294-295 of `ZhihuStream.get`: `digest =
self.get_argument('digest', False) == 'true'`; the argument is `none`
when absent. -/
def ZhihuStream_digest (arg : Option String) : Bool :=
  match arg with
  | some s => s = "true"
  | none => false

/-- Lines 308-312 of `ZhihuTopic.get`: `sort = self.get_argument('sort',
None); if sort not in ('newest', 'hot'): sort = 'hot'`. -/
def ZhihuTopic_sort (arg : Option String) : String :=
  match arg with
  | some s => if s = "newest" ∨ s = "hot" then s else "hot"
  | none => "hot"

/-- An all-absent item, used to build concrete sample posts. -/
def emptyPost : Post :=
  { type := "", id := none, title := none, question := none,
    created_time := none, created := none, author := none,
    excerpt := none, content := none, thumbnail := none }

/-- The identity sanitizer, used to evaluate the pipeline concretely. -/
def sanitizeId : String → Option String → String := fun s _ => s

/-- A well-formed answer item with every required field present. -/
def samplePost : Post :=
  { emptyPost with
    type := "answer",
    question := some { title := some "t", id := some "1" },
    id := some "2",
    created_time := some 0,
    author := some { name := some "a" },
    content := some "<p>hi</p>",
    thumbnail := some "u" }

/-- An answer item with every required field present but with neither a
`content` nor an `excerpt` key. -/
def sampleBadPost : Post :=
  { samplePost with content := none, excerpt := none }

/-- A well-formed answer item whose content is present but empty, with a
thumbnail. -/
def sampleEmptyBodyPost : Post :=
  { samplePost with content := some "" }

/-! # Theorems -/

/-! ## Pagination loop lemmas -/

theorem stream_walk_page_le (pp : ActPage → List Post) (fetch : Nat → ActPage)
    (cur : ActPage) (posts : List Post) (page : Nat) :
    page ≤ (stream_walk pp fetch cur posts page).2.1 := by
  induction cur, posts, page using stream_walk.induct pp fetch with
  | case1 cur posts page h hend => rw [stream_walk]; simp [h, hend]
  | case2 cur posts page h hend nxt ih =>
      rw [stream_walk]; simp only [dif_pos h, if_neg hend]
      simp only [nxt] at ih ⊢
      omega
  | case3 cur posts page h => rw [stream_walk]; simp [h]

theorem stream_walk_page_le3 (pp : ActPage → List Post) (fetch : Nat → ActPage)
    (cur : ActPage) (posts : List Post) (page : Nat) (h3 : page ≤ 3) :
    (stream_walk pp fetch cur posts page).2.1 ≤ 3 := by
  induction cur, posts, page using stream_walk.induct pp fetch with
  | case1 cur posts page h hend => rw [stream_walk]; simp [h, hend]; omega
  | case2 cur posts page h hend nxt ih =>
      rw [stream_walk]; simp only [dif_pos h, if_neg hend]
      simp only [nxt] at ih ⊢
      exact ih (by omega)
  | case3 cur posts page h => rw [stream_walk]; simp [h]; omega

theorem stream_walk_exit (pp : ActPage → List Post) (fetch : Nat → ActPage)
    (cur : ActPage) (posts : List Post) (page : Nat) (h3 : page ≤ 3) :
    20 ≤ (stream_walk pp fetch cur posts page).1.length ∨
    (stream_walk pp fetch cur posts page).2.2.is_end = true ∨
    (stream_walk pp fetch cur posts page).2.1 = 3 := by
  induction cur, posts, page using stream_walk.induct pp fetch with
  | case1 cur posts page h hend =>
      rw [stream_walk]; simp only [dif_pos h, if_pos hend]
      exact Or.inr (Or.inl hend)
  | case2 cur posts page h hend nxt ih =>
      rw [stream_walk]; simp only [dif_pos h, if_neg hend]
      simp only [nxt] at ih ⊢
      exact ih (by omega)
  | case3 cur posts page h =>
      rw [stream_walk]; simp only [dif_neg h]
      rw [not_and_or] at h
      rcases h with h | h
      · exact Or.inl (by omega)
      · exact Or.inr (Or.inr (by omega))

theorem stream_walk_concat (pp : ActPage → List Post) (fetch : Nat → ActPage)
    (cur : ActPage) (posts : List Post) (page : Nat) :
    (stream_walk pp fetch cur posts page).1 =
      posts ++ ((List.range' (page + 1) ((stream_walk pp fetch cur posts page).2.1 - page)).map
        (fun i => pp (fetch i))).flatten := by
  induction cur, posts, page using stream_walk.induct pp fetch with
  | case1 cur posts page h hend =>
      rw [stream_walk]; simp [h, hend]
  | case2 cur posts page h hend nxt ih =>
      have hle : page + 1 ≤ (stream_walk pp fetch nxt (posts ++ pp nxt) (page + 1)).2.1 :=
        stream_walk_page_le pp fetch nxt (posts ++ pp nxt) (page + 1)
      rw [stream_walk]; simp only [dif_pos h, if_neg hend]
      simp only [nxt] at ih hle ⊢
      rw [ih]
      have hn : (stream_walk pp fetch (fetch (page+1)) (posts ++ pp (fetch (page+1))) (page + 1)).2.1 - page
          = ((stream_walk pp fetch (fetch (page+1)) (posts ++ pp (fetch (page+1))) (page + 1)).2.1 - (page + 1)) + 1 := by
        omega
      rw [hn, List.range'_succ]
      simp [List.append_assoc]
  | case3 cur posts page h =>
      rw [stream_walk]; simp [h]

theorem range_succ_eq_cons (n : Nat) : List.range (n + 1) = 0 :: List.range' 1 n := by
  rw [List.range_eq_range', List.range'_succ]

/-! ## Claim theorems -/

/-- C1: for every sequence of upstream pages, the user-stream and
topic-stream aggregations each stop in a state where the accepted-post
list has at least 20 items, or the last page consumed reported
`is_end`, or exactly 3 pages beyond the first were fetched (the counter
`.2.1` counts only pages after the first and never exceeds 3); the first
page's accepted posts are always included, as a prefix of the result. -/
theorem aggregation_budget_invariant (fetch : Nat → ActPage) :
    (20 ≤ (activities_agg fetch).1.length ∨ (activities_agg fetch).2.2.is_end = true ∨
      (activities_agg fetch).2.1 = 3) ∧
    (activities_agg fetch).2.1 ≤ 3 ∧
    (∃ t, (activities_agg fetch).1 = page_posts_user (fetch 0) ++ t) ∧
    (20 ≤ (topic_agg fetch).1.length ∨ (topic_agg fetch).2.2.is_end = true ∨
      (topic_agg fetch).2.1 = 3) ∧
    (topic_agg fetch).2.1 ≤ 3 ∧
    (∃ t, (topic_agg fetch).1 = page_posts_topic (fetch 0) ++ t) :=
  ⟨stream_walk_exit _ fetch _ _ 0 (by omega),
   stream_walk_page_le3 _ fetch _ _ 0 (by omega),
   ⟨_, stream_walk_concat _ fetch _ _ 0⟩,
   stream_walk_exit _ fetch _ _ 0 (by omega),
   stream_walk_page_le3 _ fetch _ _ 0 (by omega),
   ⟨_, stream_walk_concat _ fetch _ _ 0⟩⟩

/-- C6: for every sequence of upstream pages, the aggregated post list
is exactly the page-by-page concatenation, in fetch order, of each
consumed page's items filtered by the acceptance policy (verb filter for
user streams, everything for topic streams) — no re-sorting, no
deduplication. -/
theorem aggregation_preserves_order (fetch : Nat → ActPage) :
    (activities_agg fetch).1 =
      ((List.range ((activities_agg fetch).2.1 + 1)).map
        (fun i => page_posts_user (fetch i))).flatten ∧
    (topic_agg fetch).1 =
      ((List.range ((topic_agg fetch).2.1 + 1)).map
        (fun i => page_posts_topic (fetch i))).flatten := by
  constructor
  · rw [range_succ_eq_cons]
    have h := stream_walk_concat page_posts_user fetch (fetch 0) (page_posts_user (fetch 0)) 0
    simpa using h
  · rw [range_succ_eq_cons]
    have h := stream_walk_concat page_posts_topic fetch (fetch 0) (page_posts_topic (fetch 0)) 0
    simpa using h

/-! ## `str.replace` lemmas -/

theorem replaceGo_nil (pat rep : List Char) (fuel : Nat) :
    replaceGo pat rep fuel [] = [] := by
  cases fuel <;> rfl

theorem replaceGo_fuel (pat rep : List Char) :
    ∀ fuel fuel' s, s.length ≤ fuel → s.length ≤ fuel' →
      replaceGo pat rep fuel s = replaceGo pat rep fuel' s := by
  intro fuel
  induction fuel with
  | zero =>
    intro fuel' s hs _
    have : s = [] := List.length_eq_zero.mp (Nat.le_zero.mp hs)
    subst this
    simp [replaceGo_nil]
  | succ n ih =>
    intro fuel' s hs hs'
    match s, fuel' with
    | [], _ => simp [replaceGo_nil]
    | c :: rest, 0 => simp at hs'
    | c :: rest, m + 1 =>
      simp only [replaceGo]
      by_cases hp : pat.isPrefixOf (c :: rest) = true
      · simp only [if_pos hp]
        congr 1
        apply ih
        · have := List.length_drop (pat.length - 1) rest
          simp at hs ⊢
          omega
        · have := List.length_drop (pat.length - 1) rest
          simp at hs' ⊢
          omega
      · simp only [if_neg hp]
        congr 1
        apply ih
        · simp at hs; omega
        · simp at hs'; omega

theorem strReplace_nil (pat rep : List Char) : strReplace pat rep [] = [] := by
  unfold strReplace
  split <;> simp [replaceGo_nil]

theorem strReplace_cons_neg (pat rep : List Char) (c : Char) (rest : List Char)
    (hpat : pat ≠ []) (h : ¬ pat.isPrefixOf (c :: rest) = true) :
    strReplace pat rep (c :: rest) = c :: strReplace pat rep rest := by
  unfold strReplace
  simp only [if_neg hpat, List.length_cons, replaceGo, if_neg h]

theorem strReplace_append_match (pat rep t : List Char) (hpat : pat ≠ []) :
    strReplace pat rep (pat ++ t) = rep ++ strReplace pat rep t := by
  obtain ⟨p, ps, rfl⟩ : ∃ p ps, pat = p :: ps := by
    cases pat with
    | nil => exact absurd rfl hpat
    | cons p ps => exact ⟨p, ps, rfl⟩
  have hpre : (p :: ps).isPrefixOf (p :: (ps ++ t)) = true := by
    clear hpat
    induction ps generalizing p with
    | nil => simp [List.isPrefixOf]
    | cons q qs ih => simp [List.isPrefixOf, ih]
  unfold strReplace
  simp only [if_neg hpat, List.cons_append, List.length_cons, replaceGo, List.append_eq,
    if_pos hpre, Nat.add_sub_cancel, List.drop_left]
  congr 1
  apply replaceGo_fuel
  · simp
  · exact Nat.le_refl _

theorem strReplace_append_no_head (pat rep : List Char) (hd : Char) (tl s t : List Char)
    (hpat : pat = hd :: tl) (h : hd ∉ s) :
    strReplace pat rep (s ++ t) = s ++ strReplace pat rep t := by
  induction s with
  | nil => simp
  | cons c rest ih =>
    have hne : ¬ pat.isPrefixOf (c :: (rest ++ t)) = true := by
      subst hpat
      simp only [List.isPrefixOf, Bool.and_eq_true, beq_iff_eq]
      rintro ⟨rfl, -⟩
      exact h (List.mem_cons_self _ _)
    rw [List.cons_append, strReplace_cons_neg pat rep c (rest ++ t) (by simp [hpat]) hne]
    rw [ih (fun hm => h (List.mem_cons_of_mem _ hm))]
    simp

theorem no_match_p1_gt (rest : List Char) :
    ¬ ("<code ".data.isPrefixOf ('>' :: rest)) = true := by
  rw [show "<code ".data = '<' :: 'c' :: 'o' :: 'd' :: 'e' :: ' ' :: [] from by decide]
  simp [List.isPrefixOf]

theorem no_match_p2_first (c : Char) (rest : List Char) (hc : c ≠ '<') :
    ¬ ("</code>".data.isPrefixOf (c :: rest)) = true := by
  rw [show "</code>".data = '<' :: '/' :: 'c' :: 'o' :: 'd' :: 'e' :: '>' :: [] from by decide]
  simp only [List.isPrefixOf, Bool.and_eq_true, beq_iff_eq]
  rintro ⟨rfl, -⟩
  exact hc rfl

theorem no_match_p2_second (c : Char) (rest : List Char) (hc : c ≠ '/') :
    ¬ ("</code>".data.isPrefixOf ('<' :: c :: rest)) = true := by
  rw [show "</code>".data = '<' :: '/' :: 'c' :: 'o' :: 'd' :: 'e' :: '>' :: [] from by decide]
  simp only [List.isPrefixOf, Bool.and_eq_true, beq_iff_eq]
  rintro ⟨-, rfl, -⟩
  exact hc rfl

theorem strReplace_code_wrap (A B : List Char) (ha : '<' ∉ A) (hb : '<' ∉ B) :
    strReplace "</code>".data "</code></pre>".data
      (strReplace "<code ".data "<pre><code ".data
        ("<code ".data ++ (A ++ '>' :: (B ++ "</code>".data)))) =
    "<pre><code ".data ++ (A ++ '>' :: (B ++ "</code></pre>".data)) := by
  rw [strReplace_append_match _ _ _ (by decide)]
  rw [strReplace_append_no_head "<code ".data "<pre><code ".data '<' "code ".data A _
    (by decide) ha]
  rw [strReplace_cons_neg _ _ '>' _ (by decide) (no_match_p1_gt _)]
  rw [strReplace_append_no_head "<code ".data "<pre><code ".data '<' "code ".data B _
    (by decide) hb]
  rw [show strReplace "<code ".data "<pre><code ".data "</code>".data = "</code>".data
    from by decide]
  rw [show "<pre><code ".data = '<' :: 'p' :: 'r' :: 'e' :: '>' :: '<' :: 'c' :: 'o' :: 'd' :: 'e' :: ' ' :: [] from by decide]
  simp only [List.cons_append, List.nil_append]
  rw [strReplace_cons_neg _ _ '<' _ (by decide) (no_match_p2_second 'p' _ (by decide))]
  rw [strReplace_cons_neg _ _ 'p' _ (by decide) (no_match_p2_first 'p' _ (by decide))]
  rw [strReplace_cons_neg _ _ 'r' _ (by decide) (no_match_p2_first 'r' _ (by decide))]
  rw [strReplace_cons_neg _ _ 'e' _ (by decide) (no_match_p2_first 'e' _ (by decide))]
  rw [strReplace_cons_neg _ _ '>' _ (by decide) (no_match_p2_first '>' _ (by decide))]
  rw [strReplace_cons_neg _ _ '<' _ (by decide) (no_match_p2_second 'c' _ (by decide))]
  rw [strReplace_cons_neg _ _ 'c' _ (by decide) (no_match_p2_first 'c' _ (by decide))]
  rw [strReplace_cons_neg _ _ 'o' _ (by decide) (no_match_p2_first 'o' _ (by decide))]
  rw [strReplace_cons_neg _ _ 'd' _ (by decide) (no_match_p2_first 'd' _ (by decide))]
  rw [strReplace_cons_neg _ _ 'e' _ (by decide) (no_match_p2_first 'e' _ (by decide))]
  rw [strReplace_cons_neg _ _ ' ' _ (by decide) (no_match_p2_first ' ' _ (by decide))]
  rw [strReplace_append_no_head "</code>".data "</code></pre>".data '<' "/code>".data A _
    (by decide) ha]
  rw [strReplace_cons_neg _ _ '>' _ (by decide) (no_match_p2_first '>' _ (by decide))]
  rw [strReplace_append_no_head "</code>".data "</code></pre>".data '<' "/code>".data B _
    (by decide) hb]
  rw [show strReplace "</code>".data "</code></pre>".data "</code>".data = "</code></pre>".data
    from by decide]

/-- C3 counterexample: the fragment `<code>x</code>`, whose `<code>`
element carries no attributes, is not wrapped: the output is
`<code>x</code></pre>` and contains no `<pre>` at all (replacing
`<pre>` in it is a no-op), so the element does not render as a
block-level element. -/
theorem wrapCode_bare_code_unwrapped :
    wrapCode "<code>x</code>" = "<code>x</code></pre>" ∧
    pyReplace (wrapCode "<code>x</code>") "<pre>" "#" = wrapCode "<code>x</code>" := by
  constructor <;> decide

/-- C3 (amended): every `<code>` element whose opening tag carries
attributes (an occurrence of `<code ` followed by attribute text) is
wrapped into `<pre>...</pre>` so it renders as a block; a bare `<code>`
opening tag without attributes is left unwrapped (only its `</code>`
closer receives a spurious `</pre>`, see the counterexample). -/
theorem wrapCode_wraps_attributed (attrs body : String)
    (ha : '<' ∉ attrs.data) (hb : '<' ∉ body.data) :
    wrapCode ("<code " ++ attrs ++ ">" ++ body ++ "</code>") =
      "<pre><code " ++ attrs ++ ">" ++ body ++ "</code></pre>" := by
  apply String.ext
  show strReplace "</code>".data "</code></pre>".data
      (strReplace "<code ".data "<pre><code ".data
        ("<code " ++ attrs ++ ">" ++ body ++ "</code>").data) = _
  have harg : ("<code " ++ attrs ++ ">" ++ body ++ "</code>").data =
      "<code ".data ++ (attrs.data ++ '>' :: (body.data ++ "</code>".data)) := by
    simp only [String.data_append, List.append_assoc]
    rfl
  rw [harg, strReplace_code_wrap attrs.data body.data ha hb]
  simp only [String.data_append, List.append_assoc]
  rfl

/-- Witness for the amended C3 at a concrete attributed code block. -/
theorem wrapCode_wraps_attributed_witness :
    wrapCode ("<code " ++ "class=\"lang\"" ++ ">" ++ "print 1" ++ "</code>") =
      "<pre><code " ++ "class=\"lang\"" ++ ">" ++ "print 1" ++ "</code></pre>" :=
  wrapCode_wraps_attributed "class=\"lang\"" "print 1" (by decide) (by decide)

theorem getKey_toOption {α : Type} (o : Option α) (k : String) :
    (getKey o k).toOption = o := by
  cases o <;> rfl

theorem post_content_toOption_eq (post : Post) (digest : Bool) :
    (post_content post digest).toOption = bodySelectionSpec post digest := by
  unfold post_content bodySelectionSpec
  split_ifs <;> exact getKey_toOption _ _

/-- C4: for every raw item, the body selected by `post_content` follows
exactly the spec's priority order (question → title; digest → excerpt;
no full-content field → excerpt; otherwise full content), as captured by
the independently written `bodySelectionSpec`; a raised `KeyError`
corresponds to the selected field being absent. -/
theorem post_content_matches_spec (post : Post) (digest : Bool) :
    (post_content post digest).toOption = bodySelectionSpec post digest :=
  post_content_toOption_eq post digest

/-- C7: an item of kind roundtable, live or column normalizes to
nothing without raising and without a warning; an item of any other
unrecognized kind (not answer/article, and not an accepted question)
normalizes to nothing without raising, with a logged warning. -/
theorem post2rss_skips_unrecognized (sanitize : String → Option String → String)
    (post : Post) (digest : Bool) (pic : Option String) (extra_types : List String) :
    (post.type ∈ ["roundtable", "live", "column"] →
      post2rss sanitize post digest pic extra_types = Except.ok (none, false)) ∧
    (post.type ∉ ["answer", "article", "roundtable", "live", "column"] →
      ¬ ("question" ∈ extra_types ∧ post.type = "question") →
      post2rss sanitize post digest pic extra_types = Except.ok (none, true)) := by
  constructor
  · intro h
    have ha : post.type ≠ "answer" := by intro he; rw [he] at h; simp at h
    have hb : post.type ≠ "article" := by intro he; rw [he] at h; simp at h
    have hq : ¬ ("question" ∈ extra_types ∧ post.type = "question") := by
      rintro ⟨-, he⟩; rw [he] at h; simp at h
    simp [post2rss, ha, hb, hq, h]
  · intro h1 h2
    have ha : post.type ≠ "answer" := by intro he; exact h1 (by simp [he])
    have hb : post.type ≠ "article" := by intro he; exact h1 (by simp [he])
    have hc : post.type ∉ (["roundtable", "live", "column"] : List String) := by
      intro he; exact h1 (by simp at he ⊢; tauto)
    simp [post2rss, ha, hb, h2, hc]

/-- Witness for C7 at a concrete roundtable item and a concrete item of
the unrecognized kind "pin". -/
theorem post2rss_skips_unrecognized_witness :
    post2rss sanitizeId { emptyPost with type := "roundtable" } false none [] =
      Except.ok (none, false) ∧
    post2rss sanitizeId { emptyPost with type := "pin" } false none ["question"] =
      Except.ok (none, true) :=
  ⟨(post2rss_skips_unrecognized sanitizeId { emptyPost with type := "roundtable" }
      false none []).1 (by decide),
   (post2rss_skips_unrecognized sanitizeId { emptyPost with type := "pin" }
      false none ["question"]).2 (by decide) (by decide)⟩

/-- C8: a user-stream request whose profile-card fetch returns an empty
response body fails with HTTP 404 (`web.HTTPError(404)` raised by
`ZhihuAPI.card`), not a generic server error. -/
theorem activities2rss_empty_card_404 (parse : String → CardInfo)
    (sanitize : String → Option String → String) (res : HTTPResponse)
    (fetch : Nat → ActPage) (digest : Bool) (pic : Option String)
    (h : res.body = "") :
    activities2rss parse sanitize res fetch digest pic = Except.error 404 := by
  simp [activities2rss, card, h]

/-- Witness for C8 at a concrete empty response. -/
theorem activities2rss_empty_card_404_witness :
    activities2rss (fun _ => ⟨"", "", ""⟩) sanitizeId ⟨""⟩
      (fun _ => ⟨[], true⟩) false none = Except.error 404 :=
  activities2rss_empty_card_404 (fun _ => ⟨"", "", ""⟩) sanitizeId ⟨""⟩
    (fun _ => ⟨[], true⟩) false none rfl

/-- C9: a topic-stream request whose `sort` argument is absent or is any
value other than "hot" or "newest" is processed with sort "hot". -/
theorem ZhihuTopic_sort_defaults_hot (arg : Option String)
    (h : arg = none ∨ ∃ s, arg = some s ∧ s ≠ "hot" ∧ s ≠ "newest") :
    ZhihuTopic_sort arg = "hot" := by
  rcases h with rfl | ⟨s, rfl, h1, h2⟩
  · rfl
  · simp [ZhihuTopic_sort, h1, h2]

/-- Witness for C9 at the concrete argument "bogus". -/
theorem ZhihuTopic_sort_defaults_hot_witness :
    ZhihuTopic_sort (some "bogus") = "hot" :=
  ZhihuTopic_sort_defaults_hot (some "bogus")
    (Or.inr ⟨"bogus", rfl, by decide, by decide⟩)

theorem wrapCode_nil : wrapCode "" = "" := rfl

theorem make_item_isOk (sanitize : String → Option String → String) (post : Post)
    (digest : Bool) (pic : Option String) (title url : String) (t_c : Int)
    (author : Option String) (v : String)
    (h : post_content post digest = Except.ok v) :
    (make_item sanitize post digest pic title url t_c author).isOk = true := by
  unfold make_item
  rw [h]
  rfl

theorem post_content_ok_of_spec (post : Post) (digest : Bool)
    (hb : bodySelectionSpec post digest ≠ none) :
    ∃ v, post_content post digest = Except.ok v := by
  have ht := post_content_toOption_eq post digest
  cases hpc : post_content post digest with
  | ok v => exact ⟨v, rfl⟩
  | error e =>
    rw [hpc] at ht
    simp only [Except.toOption] at ht
    exact absurd ht.symm hb

theorem some_of_bind_ne_none {α β : Type} (o : Option α) (f : α → Option β)
    (h : o.bind f ≠ none) : ∃ a, o = some a ∧ f a ≠ none := by
  cases o with
  | none => simp at h
  | some a => exact ⟨a, rfl, by simpa using h⟩

theorem some_of_ne_none {α : Type} (o : Option α) (h : o ≠ none) :
    ∃ a, o = some a := by
  cases o with
  | none => simp at h
  | some a => exact ⟨a, rfl⟩

theorem post2rss_isOk (sanitize : String → Option String → String) (post : Post)
    (digest : Bool) (pic : Option String) (extra_types : List String)
    (hd : dispatch_ok post extra_types)
    (hb : bodySelectionSpec post digest ≠ none) :
    (post2rss sanitize post digest pic extra_types).isOk = true := by
  obtain ⟨v, hv⟩ := post_content_ok_of_spec post digest hb
  by_cases h1 : post.type = "answer"
  · obtain ⟨hqt, hqi, hid, hct, han⟩ := hd.1 h1
    obtain ⟨q, hq, hqt'⟩ := some_of_bind_ne_none _ _ hqt
    obtain ⟨qt, hqt2⟩ := some_of_ne_none _ hqt'
    rw [hq] at hqi
    obtain ⟨qi, hqi2⟩ := some_of_ne_none _ (by simpa using hqi)
    obtain ⟨pid, hid2⟩ := some_of_ne_none _ hid
    obtain ⟨tc, hct2⟩ := some_of_ne_none _ hct
    obtain ⟨a, ha, han'⟩ := some_of_bind_ne_none _ _ han
    obtain ⟨an, han2⟩ := some_of_ne_none _ han'
    rcases post with ⟨ty, pid0, title0, q0, tc0, cr0, au0, ex0, co0, th0⟩
    simp only at h1 hq hid2 hct2 ha hv
    subst h1 hq hid2 hct2 ha
    rcases q with ⟨qtitle0, qid0⟩
    simp only at hqt2 hqi2
    subst hqt2 hqi2
    rcases a with ⟨aname0⟩
    simp only at han2
    subst han2
    exact make_item_isOk sanitize _ digest pic _ _ _ _ v hv
  · by_cases h2 : post.type = "article"
    · obtain ⟨htt, hid, hcr, han⟩ := hd.2.1 h2
      obtain ⟨tt, htt2⟩ := some_of_ne_none _ htt
      obtain ⟨pid, hid2⟩ := some_of_ne_none _ hid
      obtain ⟨cr, hcr2⟩ := some_of_ne_none _ hcr
      obtain ⟨a, ha, han'⟩ := some_of_bind_ne_none _ _ han
      obtain ⟨an, han2⟩ := some_of_ne_none _ han'
      rcases post with ⟨ty, pid0, title0, q0, tc0, cr0, au0, ex0, co0, th0⟩
      simp only at h1 h2 htt2 hid2 hcr2 ha hv
      subst h2 htt2 hid2 hcr2 ha
      rcases a with ⟨aname0⟩
      simp only at han2
      subst han2
      exact make_item_isOk sanitize _ digest pic _ _ _ _ v hv
    · by_cases h3 : "question" ∈ extra_types ∧ post.type = "question"
      · obtain ⟨htt, hid, hcr⟩ := hd.2.2 h3
        obtain ⟨tt, htt2⟩ := some_of_ne_none _ htt
        obtain ⟨pid, hid2⟩ := some_of_ne_none _ hid
        obtain ⟨cr, hcr2⟩ := some_of_ne_none _ hcr
        rcases post with ⟨ty, pid0, title0, q0, tc0, cr0, au0, ex0, co0, th0⟩
        simp only at h1 h2 h3 htt2 hid2 hcr2 hv
        obtain ⟨h3a, h3b⟩ := h3
        subst h3b htt2 hid2 hcr2
        simp only [post2rss, if_neg h1, if_neg h2]
        rw [if_pos (show ("question" : String) ∈ extra_types ∧ True from ⟨h3a, trivial⟩)]
        exact make_item_isOk sanitize _ digest pic _ _ _ _ v hv
      · by_cases h4 : post.type ∈ ["roundtable", "live", "column"]
        · simp [post2rss, h1, h2, h3, h4, Except.isOk, Except.toBool]
        · simp [post2rss, h1, h2, h3, h4, Except.isOk, Except.toBool]

theorem data2rss_skips_error (sanitize : String → Option String → String)
    (digest : Bool) (pic : Option String) (extra_types : List String)
    (p : Post) (e : KeyError) (xs ys : List Post)
    (h : post2rss sanitize p digest pic extra_types = Except.error e) :
    data2rss_items sanitize digest pic extra_types (xs ++ p :: ys) =
      data2rss_items sanitize digest pic extra_types xs ++
      data2rss_items sanitize digest pic extra_types ys := by
  unfold data2rss_items
  rw [List.filterMap_append, List.filterMap_cons]
  simp [h]

/-- C2 counterexample: a recognized `answer` item with all its required
fields present but with the optional `content` and `excerpt` keys both
absent makes normalization raise `KeyError('excerpt')` (line 183
`post['excerpt']`), so normalization can throw when only optional
fields are missing. -/
theorem post2rss_raises_on_missing_excerpt :
    post2rss sanitizeId sampleBadPost false none [] = Except.error ⟨"excerpt"⟩ := by
  rfl

/-- C2 (amended): normalization never throws for a recognized item
provided the fields its branch reads are present and the selected body
field exists (in particular `excerpt` must be present whenever digest
mode selects it or the `content` key is absent; `KeyError` is raised
otherwise, see the counterexample); and, in the spec-modelled caller
`data2rss_items`, an item whose normalization raises — e.g. one with
malformed required fields — is skipped while aggregation of the
remaining items continues. -/
theorem post2rss_total_on_present_fields :
    (∀ (sanitize : String → Option String → String) (post : Post) (digest : Bool)
       (pic : Option String) (extra_types : List String),
       dispatch_ok post extra_types → bodySelectionSpec post digest ≠ none →
       (post2rss sanitize post digest pic extra_types).isOk = true) ∧
    (∀ (sanitize : String → Option String → String) (digest : Bool)
       (pic : Option String) (extra_types : List String) (p : Post) (e : KeyError)
       (xs ys : List Post),
       post2rss sanitize p digest pic extra_types = Except.error e →
       data2rss_items sanitize digest pic extra_types (xs ++ p :: ys) =
         data2rss_items sanitize digest pic extra_types xs ++
         data2rss_items sanitize digest pic extra_types ys) :=
  ⟨post2rss_isOk, data2rss_skips_error⟩

/-- Witness for the amended C2: the well-formed `samplePost` normalizes
without raising, and the raising `sampleBadPost` is skipped by the
caller while `samplePost` before it still makes it into the feed. -/
theorem post2rss_total_on_present_fields_witness :
    (post2rss sanitizeId samplePost false none []).isOk = true ∧
    data2rss_items sanitizeId false none [] ([samplePost] ++ sampleBadPost :: []) =
      data2rss_items sanitizeId false none [] [samplePost] ++
      data2rss_items sanitizeId false none [] [] :=
  ⟨post2rss_total_on_present_fields.1 sanitizeId samplePost false none []
     (by decide) (by decide),
   post2rss_total_on_present_fields.2 sanitizeId false none [] sampleBadPost
     ⟨"excerpt"⟩ [samplePost] [] (by rfl)⟩

theorem bind_getKey_ok {α β : Type} (o : Option α) (k : String)
    (f : α → Except KeyError β) (r : β)
    (h : (do let x ← getKey o k; f x) = Except.ok r) :
    ∃ a, o = some a ∧ f a = Except.ok r := by
  cases o with
  | none => exact absurd h (by simp [getKey, Bind.bind, Except.bind])
  | some a => exact ⟨a, rfl, by simpa [getKey, Bind.bind, Except.bind] using h⟩

theorem make_item_empty_eq (sanitize : String → Option String → String)
    (post : Post) (digest : Bool) (pic : Option String) (title url : String)
    (t_c : Int) (author : Option String)
    (hempty : post_content post digest = Except.ok "") :
    make_item sanitize post digest pic title url t_c author =
      Except.ok (some (RSSItem.mk (pyReplace title "\x08" "") url url
        (pyReplace (sanitize ("<img src=\"" ++ pyStr post.thumbnail ++ "\">") pic) "\x08" "")
        t_c author), false) := by
  unfold make_item
  rw [hempty]
  rfl

theorem make_item_description (sanitize : String → Option String → String)
    (post : Post) (digest : Bool) (pic : Option String) (title url : String)
    (t_c : Int) (author : Option String) (item : RSSItem) (w : Bool) (u : String)
    (hthumb : post.thumbnail = some u)
    (hempty : post_content post digest = Except.ok "")
    (h : make_item sanitize post digest pic title url t_c author =
      Except.ok (some item, w)) :
    item.description = pyReplace (sanitize ("<img src=\"" ++ u ++ "\">") pic) "\x08" "" := by
  rw [make_item_empty_eq sanitize post digest pic title url t_c author hempty] at h
  rw [hthumb] at h
  simp only [Except.ok.injEq, Prod.mk.injEq, Option.some.injEq] at h
  obtain ⟨hitem, -⟩ := h
  rw [← hitem]
  simp [pyStr]

/-- C5: for every raw item whose selected body is empty (and which does
produce a feed entry), the normalized body is the single image tag
`<img src="{thumbnail}">` for the item's thumbnail URL, passed through
the same sanitization chain (the abstract `sanitize`, covering tidy and
optional proxy rewriting) and backspace stripping as textual bodies. -/
theorem empty_body_renders_thumbnail (sanitize : String → Option String → String)
    (post : Post) (digest : Bool) (pic : Option String) (extra_types : List String)
    (item : RSSItem) (w : Bool) (u : String)
    (hthumb : post.thumbnail = some u)
    (hempty : post_content post digest = Except.ok "")
    (hok : post2rss sanitize post digest pic extra_types = Except.ok (some item, w)) :
    item.description = pyReplace (sanitize ("<img src=\"" ++ u ++ "\">") pic) "\x08" "" := by
  unfold post2rss at hok
  by_cases h1 : post.type = "answer"
  · rw [if_pos h1] at hok
    obtain ⟨q, hq, hok⟩ := bind_getKey_ok _ _ _ _ hok
    obtain ⟨qt, hqt, hok⟩ := bind_getKey_ok _ _ _ _ hok
    obtain ⟨qi, hqi, hok⟩ := bind_getKey_ok _ _ _ _ hok
    obtain ⟨pid, hpid, hok⟩ := bind_getKey_ok _ _ _ _ hok
    obtain ⟨tc, htc, hok⟩ := bind_getKey_ok _ _ _ _ hok
    obtain ⟨a, ha, hok⟩ := bind_getKey_ok _ _ _ _ hok
    obtain ⟨an, han, hok⟩ := bind_getKey_ok _ _ _ _ hok
    exact make_item_description sanitize post digest pic _ _ _ _ item w u hthumb hempty hok
  · rw [if_neg h1] at hok
    by_cases h2 : post.type = "article"
    · rw [if_pos h2] at hok
      obtain ⟨tt, htt, hok⟩ := bind_getKey_ok _ _ _ _ hok
      obtain ⟨pid, hpid, hok⟩ := bind_getKey_ok _ _ _ _ hok
      obtain ⟨cr, hcr, hok⟩ := bind_getKey_ok _ _ _ _ hok
      obtain ⟨a, ha, hok⟩ := bind_getKey_ok _ _ _ _ hok
      obtain ⟨an, han, hok⟩ := bind_getKey_ok _ _ _ _ hok
      exact make_item_description sanitize post digest pic _ _ _ _ item w u hthumb hempty hok
    · rw [if_neg h2] at hok
      by_cases h3 : "question" ∈ extra_types ∧ post.type = "question"
      · rw [if_pos h3] at hok
        obtain ⟨tt, htt, hok⟩ := bind_getKey_ok _ _ _ _ hok
        obtain ⟨pid, hpid, hok⟩ := bind_getKey_ok _ _ _ _ hok
        obtain ⟨cr, hcr, hok⟩ := bind_getKey_ok _ _ _ _ hok
        exact make_item_description sanitize post digest pic _ _ _ _ item w u hthumb hempty hok
      · rw [if_neg h3] at hok
        by_cases h4 : post.type ∈ ["roundtable", "live", "column"]
        · rw [if_pos h4] at hok
          simp at hok
        · rw [if_neg h4] at hok
          simp at hok

/-- Witness for C5: the concrete `sampleEmptyBodyPost` (an answer with
present-but-empty content and thumbnail "u") normalizes to an entry
whose body is the sanitized `<img src="u">`. -/
theorem empty_body_renders_thumbnail_witness :
    (RSSItem.mk "[回答] t" "https://www.zhihu.com/question/1/answer/2"
      "https://www.zhihu.com/question/1/answer/2" "<img src=\"u\">" 0
      (some "a")).description =
      pyReplace (sanitizeId ("<img src=\"" ++ "u" ++ "\">") none) "\x08" "" :=
  empty_body_renders_thumbnail sanitizeId sampleEmptyBodyPost false none []
    (RSSItem.mk "[回答] t" "https://www.zhihu.com/question/1/answer/2"
      "https://www.zhihu.com/question/1/answer/2" "<img src=\"u\">" 0
      (some "a")) false "u"
    (by decide) (by decide) (by decide)

/-- C10: a user-stream request enables digest mode exactly when the
`digest` argument equals the string "true"; any other value, or an
absent argument, leaves digest mode off (and never errors — the
computation is total). -/
theorem ZhihuStream_digest_iff (arg : Option String) :
    ZhihuStream_digest arg = true ↔ arg = some "true" := by
  cases arg <;> simp [ZhihuStream_digest]

end Morerss
